import Mathlib

/-!
Verification of the manifest decoder in src/main.rs (neunhoef/manifest_dumper).

The source is shallowly embedded: byte streams become List Nat (each element a
byte value), machine integers become Nat with explicit reductions modulo 2^w
where the Rust code wraps, fallible reads return Option/Except, and the
reader's loops are expressed with an explicit fuel argument (each loop
iteration of the source consumes at least one input byte, so fuel equal to the
input length plus one can never be exhausted; exhaustion is a distinguished
error value that the theorems never produce).
-/

namespace Manifest

/-- Record type constants (src/main.rs lines 10-14). -/
def ZERO_TYPE : Nat := 0

def FULL_TYPE : Nat := 1

def FIRST_TYPE : Nat := 2

def MIDDLE_TYPE : Nat := 3

def LAST_TYPE : Nat := 4

/-- Physical block size, 0x8000 bytes (src/main.rs line 16). -/
def BLOCK_SIZE : Nat := 32768

/-- Record header size in bytes (src/main.rs line 17). -/
def HEADER_SIZE : Nat := 7

/-- Little-endian read of a u16 from two bytes (byteorder read_u16). -/
def readU16LE (b0 b1 : Nat) : Nat := b0 + 256 * b1

/-- Little-endian read of a u32 from four bytes (byteorder read_u32). -/
def readU32LE (b0 b1 b2 b3 : Nat) : Nat :=
  b0 + 256 * b1 + 65536 * b2 + 16777216 * b3

/-- Little-endian read of a u64 from eight bytes (byteorder read_u64). -/
def readU64LE (b0 b1 b2 b3 b4 b5 b6 b7 : Nat) : Nat :=
  b0 + 256 * b1 + 65536 * b2 + 16777216 * b3 + 4294967296 * b4 +
    1099511627776 * b5 + 281474976710656 * b6 + 72057594037927936 * b7

/-- Shared loop of read_varint32/read_varint64 (src/main.rs lines 363-393):
little-endian base-128 varint; accumulates
result = result OR ((byte AND 0x7f) shifted left by `shift`), keeping the
value reduced into the target width (the Rust u32/u64 arithmetic wraps).
Returns none when the cursor is exhausted before a terminating byte
(read_exact UnexpectedEof). -/
def read_varint_aux (width : Nat) : List Nat → Nat → Nat → Option (Nat × List Nat)
  | [], _, _ => none
  | b :: rest, result, shift =>
    let result' := (result ||| ((b &&& 0x7f) <<< shift)) % 2 ^ width
    if b &&& 0x80 = 0 then some (result', rest)
    else read_varint_aux width rest result' (shift + 7)

/-- read_varint32 (src/main.rs lines 363-377). -/
def read_varint32 (bs : List Nat) : Option (Nat × List Nat) :=
  read_varint_aux 32 bs 0 0

/-- read_varint64 (src/main.rs lines 379-393). -/
def read_varint64 (bs : List Nat) : Option (Nat × List Nat) :=
  read_varint_aux 64 bs 0 0

/-- read_length_prefixed_slice (src/main.rs lines 395-400): a varint32 length
followed by exactly that many bytes. -/
def read_length_prefixed_slice (bs : List Nat) : Option (List Nat × List Nat) :=
  match read_varint32 bs with
  | none => none
  | some (len, rest) =>
    if len ≤ rest.length then some (rest.take len, rest.drop len) else none

/-- unmask_crc (src/main.rs lines 402-405): wrapping u32 subtraction of
0xa282ead8 followed by (rot >> 17) | (rot << 15); all u32 operations are
modelled as Nat reduced modulo 2^32. -/
def unmask_crc (c : Nat) : Nat :=
  let rot := (c + (4294967296 - 0xa282ead8)) % 4294967296
  (rot >>> 17) ||| ((rot <<< 15) % 4294967296)

/-- Is `b` a UTF-8 continuation byte (0x80..0xBF)? Helper for the
String::from_utf8 validity check. -/
def isUtf8Cont (b : Nat) : Bool := 128 ≤ b && b ≤ 191

/-- UTF-8 validity of a byte sequence, as enforced by Rust's
String::from_utf8 (RFC 3629: no overlong forms, no surrogates, maximum
scalar value 0x10FFFF). Strings decoded by the program are modelled as their
(validated) byte sequences. -/
def isValidUtf8 : List Nat → Bool
  | [] => true
  | b :: rest =>
    if b ≤ 0x7F then isValidUtf8 rest
    else if 0xC2 ≤ b && b ≤ 0xDF then
      match rest with
      | c1 :: rest1 => isUtf8Cont c1 && isValidUtf8 rest1
      | [] => false
    else if b = 0xE0 then
      match rest with
      | c1 :: c2 :: rest1 =>
        (0xA0 ≤ c1 && c1 ≤ 0xBF) && isUtf8Cont c2 && isValidUtf8 rest1
      | _ => false
    else if (0xE1 ≤ b && b ≤ 0xEC) || b = 0xEE || b = 0xEF then
      match rest with
      | c1 :: c2 :: rest1 => isUtf8Cont c1 && isUtf8Cont c2 && isValidUtf8 rest1
      | _ => false
    else if b = 0xED then
      match rest with
      | c1 :: c2 :: rest1 =>
        (0x80 ≤ c1 && c1 ≤ 0x9F) && isUtf8Cont c2 && isValidUtf8 rest1
      | _ => false
    else if b = 0xF0 then
      match rest with
      | c1 :: c2 :: c3 :: rest1 =>
        (0x90 ≤ c1 && c1 ≤ 0xBF) && isUtf8Cont c2 && isUtf8Cont c3 &&
          isValidUtf8 rest1
      | _ => false
    else if 0xF1 ≤ b && b ≤ 0xF3 then
      match rest with
      | c1 :: c2 :: c3 :: rest1 =>
        isUtf8Cont c1 && isUtf8Cont c2 && isUtf8Cont c3 && isValidUtf8 rest1
      | _ => false
    else if b = 0xF4 then
      match rest with
      | c1 :: c2 :: c3 :: rest1 =>
        (0x80 ≤ c1 && c1 ≤ 0x8F) && isUtf8Cont c2 && isUtf8Cont c3 &&
          isValidUtf8 rest1
      | _ => false
    else false

/-- FileMetaData (src/main.rs lines 96-124). InternalKey values are stored as
their raw byte lists, Strings as validated byte lists, machine integers as
Nat. -/
structure FileMetaData where
  level : Nat
  file_number : Nat
  file_size : Nat
  smallest_key : List Nat
  largest_key : List Nat
  smallest_seqno : Nat
  largest_seqno : Nat
  path_id : Nat
  needs_compaction : Bool
  min_log_number_to_keep : Option Nat
  oldest_blob_file_number : Option Nat
  oldest_ancester_time : Nat
  file_creation_time : Nat
  epoch_number : Nat
  file_checksum : List Nat
  file_checksum_func_name : List Nat
  temperature : Option Nat
  unique_id : List Nat
  compensated_range_deletion_size : Nat
  tail_size : Nat
  user_defined_timestamps_persisted : Bool
  min_timestamp : Option (List Nat)
  max_timestamp : Option (List Nat)
  deleted : Bool
deriving Repr, DecidableEq

/-- Default::default() for FileMetaData (src/main.rs lines 126-155). -/
def FileMetaData.default : FileMetaData where
  level := 0
  file_number := 0
  file_size := 0
  smallest_key := []
  largest_key := []
  smallest_seqno := 0
  largest_seqno := 0
  path_id := 0
  needs_compaction := false
  min_log_number_to_keep := none
  oldest_blob_file_number := none
  oldest_ancester_time := 0
  file_creation_time := 0
  epoch_number := 0
  file_checksum := []
  file_checksum_func_name := []
  temperature := none
  unique_id := []
  compensated_range_deletion_size := 0
  tail_size := 0
  user_defined_timestamps_persisted := true
  min_timestamp := none
  max_timestamp := none
  deleted := false

/-- VersionEdit (src/main.rs lines 292-309). -/
inductive VersionEdit where
  | comparator (name : List Nat)
  | logNumber (n : Nat)
  | nextFileNumber (n : Nat)
  | lastSequence (n : Nat)
  | newFile4 (meta : FileMetaData)
  | columnFamily (id : Nat)
  | columnFamilyAdd (name : List Nat)
  | prevLogNumber (n : Nat)
  | maxColumnFamily (n : Nat)
  | deletedFile (level : Nat) (file_number : Nat)
  | compactCursor (level : Nat) (key : List Nat)
  | minLogNumberToKeep (n : Nat)
  | columnFamilyDrop
deriving Repr, DecidableEq

/-- The typed errors read_record can return (io::Error values in the source,
distinguished here by the site that creates them).
fuelExhausted is an artefact of the fuel-based loop encoding and is
unreachable when the fuel exceeds the input length. -/
inductive DecodeError where
  | unexpectedEof
  | truncatedRecord
  | invalidRecordType (t : Nat)
  | obsoleteTag (tag : Nat)
  | unknownTag (tag : Nat)
  | malformedField (msg : String)
  | invalidUtf8
  | unsupportedCustomField (tag : Nat)
  | fuelExhausted
deriving Repr, DecidableEq

/-- Lift an Option-returning primitive read into Except, mapping none to the
UnexpectedEof io error that the source propagates with the ? operator. -/
def liftEof {α : Type} (o : Option α) : Except DecodeError α :=
  match o with
  | none => .error .unexpectedEof
  | some a => .ok a

/-- The custom-field loop of the NewFile4 decoder
(src/main.rs lines 554-669). Reads (sub_tag, length-prefixed value) pairs
until the Terminate sub-tag (value 1, no value follows). Recognized sub-tags
2..16 each update one FileMetaData field; an unrecognized sub-tag fails when
its 0x40 bit is set and is silently skipped otherwise. The Ok(Terminate)
match arm in the source (line 563) is unreachable because sub_tag 1 already
broke out of the loop, and is therefore not represented. -/
def readCustomFieldsAux : Nat → List Nat → FileMetaData →
    Except DecodeError (FileMetaData × List Nat)
  | 0, _, _ => .error .fuelExhausted
  | fuel + 1, bytes, meta =>
    match read_varint32 bytes with
    | none => .error .unexpectedEof
    | some (custom_tag, bs1) =>
      if custom_tag = 1 then .ok (meta, bs1)
      else
        match read_length_prefixed_slice bs1 with
        | none => .error .unexpectedEof
        | some (field_data, bs2) =>
          if custom_tag = 2 then
            match field_data with
            | [b] => readCustomFieldsAux fuel bs2 { meta with needs_compaction := b == 1 }
            | _ => .error (.malformedField "need_compaction field wrong size")
          else if custom_tag = 3 then
            match field_data with
            | b0 :: b1 :: b2 :: b3 :: b4 :: b5 :: b6 :: b7 :: _ =>
              readCustomFieldsAux fuel bs2
                { meta with min_log_number_to_keep := some (readU64LE b0 b1 b2 b3 b4 b5 b6 b7) }
            | _ => .error .unexpectedEof
          else if custom_tag = 4 then
            match read_varint64 field_data with
            | none => .error .unexpectedEof
            | some (n, _) =>
              readCustomFieldsAux fuel bs2 { meta with oldest_blob_file_number := some n }
          else if custom_tag = 5 then
            match read_varint64 field_data with
            | none => .error .unexpectedEof
            | some (n, _) =>
              readCustomFieldsAux fuel bs2 { meta with oldest_ancester_time := n }
          else if custom_tag = 6 then
            match read_varint64 field_data with
            | none => .error .unexpectedEof
            | some (n, _) =>
              readCustomFieldsAux fuel bs2 { meta with file_creation_time := n }
          else if custom_tag = 7 then
            if isValidUtf8 field_data then
              readCustomFieldsAux fuel bs2 { meta with file_checksum := field_data }
            else .error .invalidUtf8
          else if custom_tag = 8 then
            if isValidUtf8 field_data then
              readCustomFieldsAux fuel bs2 { meta with file_checksum_func_name := field_data }
            else .error .invalidUtf8
          else if custom_tag = 9 then
            match field_data with
            | [b] => readCustomFieldsAux fuel bs2 { meta with temperature := some b }
            | _ => .error (.malformedField "temperature field wrong size")
          else if custom_tag = 10 then
            readCustomFieldsAux fuel bs2 { meta with min_timestamp := some field_data }
          else if custom_tag = 11 then
            readCustomFieldsAux fuel bs2 { meta with max_timestamp := some field_data }
          else if custom_tag = 12 then
            readCustomFieldsAux fuel bs2 { meta with unique_id := field_data }
          else if custom_tag = 13 then
            match read_varint64 field_data with
            | none => .error .unexpectedEof
            | some (n, _) =>
              readCustomFieldsAux fuel bs2 { meta with epoch_number := n }
          else if custom_tag = 14 then
            match read_varint64 field_data with
            | none => .error .unexpectedEof
            | some (n, _) =>
              readCustomFieldsAux fuel bs2
                { meta with compensated_range_deletion_size := n }
          else if custom_tag = 15 then
            match read_varint64 field_data with
            | none => .error .unexpectedEof
            | some (n, _) =>
              readCustomFieldsAux fuel bs2 { meta with tail_size := n }
          else if custom_tag = 16 then
            match field_data with
            | [b] =>
              readCustomFieldsAux fuel bs2
                { meta with user_defined_timestamps_persisted := b == 1 }
            | _ =>
              .error (.malformedField "user-defined timestamps persisted field wrong size")
          else if custom_tag &&& 0x40 ≠ 0 then
            .error (.unsupportedCustomField custom_tag)
          else
            readCustomFieldsAux fuel bs2 meta

/-- The NewFile4 branch of the tag decoder (src/main.rs lines 529-670): six
fixed fields, then the custom-field loop. -/
def decodeNewFile4 (bs : List Nat) : Except DecodeError (FileMetaData × List Nat) := do
  let (level, bs) ← liftEof (read_varint32 bs)
  let (file_number, bs) ← liftEof (read_varint64 bs)
  let (file_size, bs) ← liftEof (read_varint64 bs)
  let (smallest_key_data, bs) ← liftEof (read_length_prefixed_slice bs)
  let (largest_key_data, bs) ← liftEof (read_length_prefixed_slice bs)
  let (smallest_seqno, bs) ← liftEof (read_varint64 bs)
  let (largest_seqno, bs) ← liftEof (read_varint64 bs)
  let meta := { FileMetaData.default with
    level := level
    file_number := file_number
    file_size := file_size
    smallest_key := smallest_key_data
    largest_key := largest_key_data
    smallest_seqno := smallest_seqno
    largest_seqno := largest_seqno }
  readCustomFieldsAux (bs.length + 1) bs meta

/-- The payload tag-decoding loop of read_record (src/main.rs lines 492-726):
while the cursor has bytes left, read a varint32 tag and dispatch on
Tag::try_from(tag as u8) - note the source truncates the u32 tag to its low
8 bits before matching. Unmatched truncated values are the fatal Unknown tag
error; truncated values 7, 100, 102 are the fatal Obsolete tag error. Both
errors report the untruncated tag, as the source formats the original
value. -/
def decodeEditsAux : Nat → List Nat → List VersionEdit →
    Except DecodeError (List VersionEdit)
  | 0, _, _ => .error .fuelExhausted
  | fuel + 1, bytes, edits =>
    match bytes with
    | [] => .ok edits
    | _ :: _ =>
      match read_varint32 bytes with
      | none => .error .unexpectedEof
      | some (tag, bs) =>
        let t8 := tag % 256
        if t8 = 1 then
          match read_length_prefixed_slice bs with
          | none => .error .unexpectedEof
          | some (data, bs2) =>
            if isValidUtf8 data then
              decodeEditsAux fuel bs2 (edits ++ [.comparator data])
            else .error .invalidUtf8
        else if t8 = 2 then
          match read_varint64 bs with
          | none => .error .unexpectedEof
          | some (n, bs2) => decodeEditsAux fuel bs2 (edits ++ [.logNumber n])
        else if t8 = 3 then
          match read_varint64 bs with
          | none => .error .unexpectedEof
          | some (n, bs2) => decodeEditsAux fuel bs2 (edits ++ [.nextFileNumber n])
        else if t8 = 4 then
          match read_varint64 bs with
          | none => .error .unexpectedEof
          | some (n, bs2) => decodeEditsAux fuel bs2 (edits ++ [.lastSequence n])
        else if t8 = 7 ∨ t8 = 100 ∨ t8 = 102 then
          .error (.obsoleteTag tag)
        else if t8 = 103 then
          match decodeNewFile4 bs with
          | .error e => .error e
          | .ok (meta, bs2) => decodeEditsAux fuel bs2 (edits ++ [.newFile4 meta])
        else if t8 = 200 then
          match read_varint32 bs with
          | none => .error .unexpectedEof
          | some (n, bs2) => decodeEditsAux fuel bs2 (edits ++ [.columnFamily n])
        else if t8 = 201 then
          match read_length_prefixed_slice bs with
          | none => .error .unexpectedEof
          | some (data, bs2) =>
            if isValidUtf8 data then
              decodeEditsAux fuel bs2 (edits ++ [.columnFamilyAdd data])
            else .error .invalidUtf8
        else if t8 = 9 then
          match read_varint64 bs with
          | none => .error .unexpectedEof
          | some (n, bs2) => decodeEditsAux fuel bs2 (edits ++ [.prevLogNumber n])
        else if t8 = 203 then
          match read_varint32 bs with
          | none => .error .unexpectedEof
          | some (n, bs2) => decodeEditsAux fuel bs2 (edits ++ [.maxColumnFamily n])
        else if t8 = 6 then
          match read_varint32 bs with
          | none => .error .unexpectedEof
          | some (level, bs2) =>
            match read_varint64 bs2 with
            | none => .error .unexpectedEof
            | some (fn, bs3) =>
              decodeEditsAux fuel bs3 (edits ++ [.deletedFile level fn])
        else if t8 = 5 then
          match read_varint32 bs with
          | none => .error .unexpectedEof
          | some (level, bs2) =>
            match read_length_prefixed_slice bs2 with
            | none => .error .unexpectedEof
            | some (data, bs3) =>
              decodeEditsAux fuel bs3 (edits ++ [.compactCursor level data])
        else if t8 = 10 then
          match read_varint64 bs with
          | none => .error .unexpectedEof
          | some (n, bs2) =>
            decodeEditsAux fuel bs2 (edits ++ [.minLogNumberToKeep n])
        else if t8 = 202 then
          decodeEditsAux fuel bs (edits ++ [.columnFamilyDrop])
        else
          .error (.unknownTag tag)

/-- Decode one complete logical payload into its VersionEdit list
(the second half of read_record, src/main.rs lines 492-728). -/
def decode_version_edits (payload : List Nat) : Except DecodeError (List VersionEdit) :=
  decodeEditsAux (payload.length + 1) payload []

/-- The framing loop of read_record (src/main.rs lines 420-490), acting on
the unread byte suffix `bytes` at absolute file offset `pos` with the
logical-payload accumulator `acc` (whole_payload). Returns the reassembled
payload, the remaining bytes and the new offset, Ok none at end of file, or
an error. The crc32c verification of the source (lines 454-467) only prints
a diagnostic to stderr on mismatch and never influences the returned value,
so it does not appear in the result; the stored checksum field is still read
and participates in the all-zero-header test exactly as in the source. -/
def readRecordAux : Nat → List Nat → Nat → List Nat →
    Except DecodeError (Option (List Nat × List Nat × Nat))
  | 0, _, _, _ => .error .fuelExhausted
  | fuel + 1, bytes, pos, acc =>
    -- bytes left in the current block, computed before the header is read
    let left := BLOCK_SIZE - pos % BLOCK_SIZE
    -- fewer than 7 bytes left in the block: trailer, skipped with an ignored
    -- read_exact (which consumes what is available); left_in_block is reset
    let skip := if left < HEADER_SIZE then min left bytes.length else 0
    let left1 := if left < HEADER_SIZE then BLOCK_SIZE else left
    let bytes1 := bytes.drop skip
    let pos1 := pos + skip
    if bytes1.length < 7 then
      -- end of file while reading the 7-byte header: clean termination
      .ok none
    else
      let expected_crc := readU32LE (bytes1.getD 0 0) (bytes1.getD 1 0)
        (bytes1.getD 2 0) (bytes1.getD 3 0)
      let size := readU16LE (bytes1.getD 4 0) (bytes1.getD 5 0)
      let rtype := bytes1.getD 6 0
      let bytes2 := bytes1.drop 7
      -- all-zero header (src line 444): the source skips left_in_block bytes
      -- (a value computed before the 7 header bytes were consumed, hence
      -- overshooting the block boundary) and then falls through WITHOUT
      -- restarting the loop, so it reaches the record-type dispatch below
      let zskip := if expected_crc = 0 ∧ size = 0 ∧ rtype = 0
        then min left1 bytes2.length else 0
      let bytes3 := bytes2.drop zskip
      let pos3 := pos1 + 7 + zskip
      if size ≤ bytes3.length then
        let payload := bytes3.take size
        let bytes4 := bytes3.drop size
        let pos4 := pos3 + size
        if rtype = FULL_TYPE then .ok (some (payload, bytes4, pos4))
        else if rtype = FIRST_TYPE then readRecordAux fuel bytes4 pos4 payload
        else if rtype = MIDDLE_TYPE then readRecordAux fuel bytes4 pos4 (acc ++ payload)
        else if rtype = LAST_TYPE then .ok (some (acc ++ payload, bytes4, pos4))
        else .error (.invalidRecordType rtype)
      else .error .truncatedRecord

/-- One call of ManifestReader::read_record (src/main.rs lines 419-729):
frame a complete logical payload and tag-decode it. The result carries the
remaining bytes and file offset (the reader's internal cursor state) so that
successive calls can be chained. -/
def read_record (bytes : List Nat) (pos : Nat) :
    Except DecodeError (Option (List VersionEdit × List Nat × Nat)) :=
  match readRecordAux (bytes.length + 1) bytes pos [] with
  | .error e => .error e
  | .ok none => .ok none
  | .ok (some (payload, rest, pos')) =>
    match decode_version_edits payload with
    | .error e => .error e
    | .ok edits => .ok (some (edits, rest, pos'))

/-- The value returned to the caller by one read_record call
(io::Result of Option of Vec of VersionEdit), with the reader's internal
cursor state dropped. -/
def read_record_value (bytes : List Nat) (pos : Nat) :
    Except DecodeError (Option (List VersionEdit)) :=
  match read_record bytes pos with
  | .error e => .error e
  | .ok none => .ok none
  | .ok (some (edits, _, _)) => .ok (some edits)

/-- Repeatedly call read_record, as the main loop does (src/main.rs lines
853-879): collect each decoded edit list until Ok(None) (clean end) or an
error terminates the sequence. -/
def readAllAux : Nat → List Nat → Nat → List (List VersionEdit) →
    List (List VersionEdit) × Option DecodeError
  | 0, _, _, acc => (acc, some .fuelExhausted)
  | fuel + 1, bytes, pos, acc =>
    match read_record bytes pos with
    | .error e => (acc, some e)
    | .ok none => (acc, none)
    | .ok (some (edits, rest, pos')) => readAllAux fuel rest pos' (acc ++ [edits])

/-- The full sequence of results produced for a file: the decoded edit lists
in order, and the terminating condition (none for clean end of file, some e
for the error that aborted decoding). -/
def readAll (file : List Nat) : List (List VersionEdit) × Option DecodeError :=
  readAllAux (file.length + 1) file 0 []

/-- A physical record fragment as a writer lays it out: stored (masked)
checksum word, record type byte, payload bytes. -/
structure Frag where
  checksum : Nat
  ftype : Nat
  payload : List Nat
deriving Repr, DecidableEq

/-- Little-endian bytes of a u32 value. -/
def le32 (n : Nat) : List Nat :=
  [n % 256, n / 256 % 256, n / 65536 % 256, n / 16777216 % 256]

/-- Little-endian bytes of a u16 value. -/
def le16 (n : Nat) : List Nat := [n % 256, n / 256 % 256]

/-- The 7-byte header followed by the payload of one fragment:
u32 checksum (LE), u16 length (LE), u8 type. -/
def fragBytes (f : Frag) : List Nat :=
  le32 f.checksum ++ le16 f.payload.length ++ [f.ftype] ++ f.payload

/-- Trailer padding the block format requires before a fragment written at
offset `pos`: when fewer than 7 bytes remain in the current 32 KiB block
they are filled and the fragment starts at the next block boundary. -/
def padFor (pos : Nat) : Nat :=
  if BLOCK_SIZE - pos % BLOCK_SIZE < HEADER_SIZE then BLOCK_SIZE - pos % BLOCK_SIZE
  else 0

/-- File offset right after a fragment with payload `p` written at `pos`. -/
def nextPos (pos : Nat) (p : List Nat) : Nat :=
  pos + padFor pos + 7 + p.length

/-- Lay out consecutive fragments starting at offset `pos`, inserting the
mandatory trailer padding (zero bytes) before any fragment that would not
have room for its 7-byte header in the current block. -/
def layoutFrags : Nat → List Frag → List Nat
  | _, [] => []
  | pos, f :: fs =>
    List.replicate (padFor pos) 0 ++ fragBytes f ++
      layoutFrags (nextPos pos f.payload) fs

/-- File offset after laying out `fs` starting at `pos`. -/
def endPos : Nat → List Frag → Nat
  | pos, [] => pos
  | pos, f :: fs => endPos (nextPos pos f.payload) fs

/-- Fragment lists that agree on everything except their stored checksums. -/
def FragRel (fs gs : List Frag) : Prop :=
  fs.map (fun f => (f.ftype, f.payload)) = gs.map (fun f => (f.ftype, f.payload))

/-- Realism bounds for a laid-out fragment: the type fits the header's u8
slot and the payload length fits its u16 slot. -/
def FragOk (f : Frag) : Prop := f.ftype ≤ 255 ∧ f.payload.length ≤ 65535

instance instDecEqExcept {ε α : Type} [DecidableEq ε] [DecidableEq α] :
    DecidableEq (Except ε α) :=
  fun a b =>
    match a, b with
    | .error e, .error f => if h : e = f then .isTrue (by rw [h]) else .isFalse (by simp [h])
    | .ok x, .ok y => if h : x = y then .isTrue (by rw [h]) else .isFalse (by simp [h])
    | .error _, .ok _ => .isFalse (by simp)
    | .ok _, .error _ => .isFalse (by simp)

lemma fragBytes_length (f : Frag) : (fragBytes f).length = 7 + f.payload.length := by
  simp [fragBytes, le32, le16]
  omega

lemma fragBytes_cons (c t : Nat) (p l : List Nat) :
    fragBytes ⟨c, t, p⟩ ++ l =
      c % 256 :: c / 256 % 256 :: c / 65536 % 256 :: c / 16777216 % 256 ::
      p.length % 256 :: p.length / 256 % 256 :: t :: (p ++ l) := by
  simp [fragBytes, le32, le16]

lemma layoutFrags_cons (pos : Nat) (f : Frag) (fs : List Frag) :
    layoutFrags pos (f :: fs) =
      List.replicate (padFor pos) 0 ++
        (fragBytes f ++ layoutFrags (nextPos pos f.payload) fs) := by
  rw [layoutFrags, List.append_assoc]

/-- When the header read hits end of file (after the trailer skip fewer than
7 bytes are available), the loop returns Ok none whatever the accumulator
holds. -/
lemma readRecordAux_eof (fuel pos : Nat) (bytes acc : List Nat)
    (h : bytes.length < padFor pos + 7) :
    readRecordAux (fuel + 1) bytes pos acc = .ok none := by
  unfold readRecordAux
  simp only []
  have hlen : ((bytes.drop (if BLOCK_SIZE - pos % BLOCK_SIZE < HEADER_SIZE
      then min (BLOCK_SIZE - pos % BLOCK_SIZE) bytes.length else 0)).length) < 7 := by
    by_cases hb : BLOCK_SIZE - pos % BLOCK_SIZE < HEADER_SIZE
    · have : padFor pos = BLOCK_SIZE - pos % BLOCK_SIZE := by simp [padFor, hb]
      simp only [hb, if_pos, List.length_drop]
      omega
    · have : padFor pos = 0 := by simp [padFor, hb]
      simp only [hb, if_neg, List.length_drop]
      omega
  simp only [if_pos hlen]

/-- Evaluating one iteration of the framing loop on a laid-out fragment:
the trailer padding is consumed, the header is parsed back, the payload is
read, and the loop dispatches on the record type exactly as the source
does. Any checksum value is accepted (the crc comparison only logs). -/
lemma readRecordAux_layout_cons (c t : Nat) (p : List Nat) (hp : p.length ≤ 65535)
    (fs : List Frag) (fuel pos : Nat) (acc : List Nat) :
    readRecordAux (fuel + 1) (layoutFrags pos (⟨c, t, p⟩ :: fs)) pos acc =
      if t = 1 then
        .ok (some (p, layoutFrags (nextPos pos p) fs, nextPos pos p))
      else if t = 2 then
        readRecordAux fuel (layoutFrags (nextPos pos p) fs) (nextPos pos p) p
      else if t = 3 then
        readRecordAux fuel (layoutFrags (nextPos pos p) fs) (nextPos pos p) (acc ++ p)
      else if t = 4 then
        .ok (some (acc ++ p, layoutFrags (nextPos pos p) fs, nextPos pos p))
      else .error (.invalidRecordType t) := by
  rw [layoutFrags_cons]
  show readRecordAux (fuel + 1)
      (List.replicate (padFor pos) 0 ++ (fragBytes ⟨c, t, p⟩ ++ layoutFrags (nextPos pos p) fs))
      pos acc = _
  rw [fragBytes_cons]
  conv_lhs => unfold readRecordAux
  simp only []
  have hskip : (if BLOCK_SIZE - pos % BLOCK_SIZE < HEADER_SIZE
      then min (BLOCK_SIZE - pos % BLOCK_SIZE)
        (List.replicate (padFor pos) 0 ++
          (c % 256 :: c / 256 % 256 :: c / 65536 % 256 :: c / 16777216 % 256 ::
          p.length % 256 :: p.length / 256 % 256 :: t ::
          (p ++ layoutFrags (nextPos pos p) fs))).length else 0) = padFor pos := by
    by_cases hb : BLOCK_SIZE - pos % BLOCK_SIZE < HEADER_SIZE
    · have hpd : padFor pos = BLOCK_SIZE - pos % BLOCK_SIZE := by simp [padFor, hb]
      simp only [hb, if_pos, List.length_append, List.length_replicate, List.length_cons]
      omega
    · simp [padFor, hb]
  rw [hskip]
  have hdrop : (List.replicate (padFor pos) 0 ++
      (c % 256 :: c / 256 % 256 :: c / 65536 % 256 :: c / 16777216 % 256 ::
      p.length % 256 :: p.length / 256 % 256 :: t ::
      (p ++ layoutFrags (nextPos pos p) fs))).drop (padFor pos) =
      c % 256 :: c / 256 % 256 :: c / 65536 % 256 :: c / 16777216 % 256 ::
      p.length % 256 :: p.length / 256 % 256 :: t ::
      (p ++ layoutFrags (nextPos pos p) fs) := by
    exact List.drop_left' (List.length_replicate _ _)
  rw [hdrop]
  have hsize : readU16LE (p.length % 256) (p.length / 256 % 256) = p.length := by
    simp [readU16LE]
    omega
  simp only [List.length_cons, List.getD_cons_zero, List.getD_cons_succ, List.drop_succ_cons,
    List.drop_zero, hsize]
  have hlen7 : ¬ ((p ++ layoutFrags (nextPos pos p) fs).length + 1 + 1 + 1 + 1 + 1 + 1 + 1 < 7) := by
    omega
  rw [if_neg hlen7]
  by_cases hz : readU32LE (c % 256) (c / 256 % 256) (c / 65536 % 256) (c / 16777216 % 256) = 0 ∧
      p.length = 0 ∧ t = 0
  · obtain ⟨h1, h2, h3⟩ := hz
    have hpnil : p = [] := List.length_eq_zero.mp h2
    subst hpnil
    subst h3
    simp [h1, readU16LE, FULL_TYPE, FIRST_TYPE, MIDDLE_TYPE, LAST_TYPE]
  · rw [if_neg hz]
    simp only [List.drop_zero]
    have hle : p.length ≤ (p ++ layoutFrags (nextPos pos p) fs).length := by
      simp [List.length_append]
    rw [if_pos hle]
    rw [show (p ++ layoutFrags (nextPos pos p) fs).take p.length = p from List.take_left _ _]
    rw [show (p ++ layoutFrags (nextPos pos p) fs).drop p.length = layoutFrags (nextPos pos p) fs
      from List.drop_left _ _]
    have hpos : pos + padFor pos + 7 + 0 + p.length = nextPos pos p := by
      simp [nextPos]
    rw [hpos]
    simp only [FULL_TYPE, FIRST_TYPE, MIDDLE_TYPE, LAST_TYPE]

lemma layoutFrags_length_ge (fs : List Frag) : ∀ pos, fs.length ≤ (layoutFrags pos fs).length := by
  induction fs with
  | nil => intro pos; simp [layoutFrags]
  | cons f fs ih =>
    intro pos
    rw [layoutFrags_cons]
    simp only [List.length_append, List.length_cons, fragBytes_length]
    have := ih (nextPos pos f.payload)
    omega

/-- A Middle fragment (type 3) embedded as a Frag. -/
def midFrag (m : Nat × List Nat) : Frag := ⟨m.1, 3, m.2⟩

/-- Running the framing loop over a run of Middle fragments followed by one
Last fragment appends all their payloads to the accumulator and returns. -/
lemma readRecordAux_middles_last (mids : List (Nat × List Nat)) (c : Nat) (pl : List Nat)
    (hm : ∀ m ∈ mids, m.2.length ≤ 65535) (hpl : pl.length ≤ 65535) :
    ∀ fuel pos acc, mids.length < fuel →
    readRecordAux fuel (layoutFrags pos (mids.map midFrag ++ [⟨c, 4, pl⟩])) pos acc =
      .ok (some (acc ++ (mids.map Prod.snd).flatten ++ pl, [],
        endPos pos (mids.map midFrag ++ [⟨c, 4, pl⟩]))) := by
  induction mids with
  | nil =>
    intro fuel pos acc hf
    obtain ⟨fuel, rfl⟩ : ∃ f, fuel = f + 1 := ⟨fuel - 1, by omega⟩
    simp only [List.map_nil, List.nil_append]
    rw [readRecordAux_layout_cons c 4 pl hpl [] fuel pos acc]
    simp [endPos, layoutFrags]
  | cons m mids ih =>
    intro fuel pos acc hf
    obtain ⟨fuel, rfl⟩ : ∃ f, fuel = f + 1 := ⟨fuel - 1, by omega⟩
    simp only [List.map_cons, List.cons_append]
    show readRecordAux (fuel + 1)
      (layoutFrags pos (⟨m.1, 3, m.2⟩ :: (mids.map midFrag ++ [⟨c, 4, pl⟩]))) pos acc = _
    rw [readRecordAux_layout_cons m.1 3 m.2 (hm m (by simp)) _ fuel pos acc]
    norm_num
    rw [ih (fun x hx => hm x (by simp [hx])) fuel (nextPos pos m.2) (acc ++ m.2)
      (by simpa using Nat.lt_of_succ_lt_succ hf)]
    simp [endPos, midFrag, nextPos]

/-- C1: the claim says an all-zero 7-byte header is intra-block padding that
is skipped, after which scanning resumes without an error. The code does
skip, but the skip is not followed by a restart of the loop: control falls
through to the record-type dispatch, which rejects type 0. Evaluated on a
file that starts with an all-zero header followed by a valid Full record
encoding LastSequence(9), read_record returns the invalid-record-type error
instead of the record the claim promises. -/
theorem c1_zero_header_is_fatal :
    read_record (List.replicate 7 0 ++ [0, 0, 0, 0, 2, 0, 1, 4, 9]) 0 =
      .error (.invalidRecordType 0) := by decide

/-- C2 counterexample: a file whose first fragment has type Middle (3) with
no preceding First, followed by a Last fragment, decodes without any error:
the Middle payload is appended to the (empty) accumulator and the
reassembled payload [2, 5] decodes to LogNumber 5. No UnexpectedMiddle
error exists anywhere in the code. -/
theorem c2_middle_without_first_succeeds :
    read_record_value ([0, 0, 0, 0, 1, 0, 3, 2] ++ [0, 0, 0, 0, 1, 0, 4, 5]) 0 =
      .ok (some [.logNumber 5]) := by decide

/-- C2 amended: a fragment of type Middle read while no logical-payload
accumulator is open does not fail; its payload becomes the accumulator
(appended to the empty accumulator) and the framing loop continues with the
next fragment. -/
theorem c2_middle_without_first_starts_accumulator (c : Nat) (p : List Nat)
    (hp : p.length ≤ 65535) (fs : List Frag) (fuel pos : Nat) :
    readRecordAux (fuel + 1) (layoutFrags pos (⟨c, 3, p⟩ :: fs)) pos [] =
      readRecordAux fuel (layoutFrags (nextPos pos p) fs) (nextPos pos p) p := by
  rw [readRecordAux_layout_cons c 3 p hp fs fuel pos []]
  norm_num

/-- C2 witness: the amended statement instantiated on one Middle fragment
with payload [2] at offset 0. -/
theorem c2_middle_without_first_starts_accumulator_witness :
    readRecordAux 1 (layoutFrags 0 [⟨0, 3, [2]⟩]) 0 [] =
      readRecordAux 0 (layoutFrags (nextPos 0 [2]) []) (nextPos 0 [2]) [2] :=
  c2_middle_without_first_starts_accumulator 0 [2] (by decide) [] 0 0

/-- C3 counterexample: the varint tag 258 (bytes [130, 2]) is not one of the
recognized tag values and is not obsolete, yet the payload decodes without
error: the source truncates the tag to a u8 (258 mod 256 = 2) before
matching, so it is decoded as LogNumber. -/
theorem c3_unrecognized_tag_258_decodes :
    decode_version_edits [130, 2, 5] = .ok [.logNumber 5] ∧
      (258 : Nat) ∉ ([1, 2, 3, 4, 5, 6, 9, 10, 103, 200, 201, 202, 203] : List Nat) ∧
      (258 : Nat) ∉ ([7, 100, 102] : List Nat) := by decide

/-- C3 amended: the decoder truncates the varint32 top-level tag to its low
8 bits before matching. A payload whose first varint is a tag whose
truncation is not a recognized value fails with the UnknownTag error
(reporting the untruncated tag); a tag whose truncation is 7, 100 or 102
fails with the distinct ObsoleteTag error. Tags whose truncation collides
with a recognized value are decoded as that operation instead of failing. -/
theorem c3_tag_dispatch_after_truncation (bs bs1 : List Nat) (tag : Nat)
    (h : read_varint32 bs = some (tag, bs1)) :
    (tag % 256 ∉ ([1, 2, 3, 4, 5, 6, 7, 9, 10, 100, 102, 103, 200, 201, 202, 203] : List Nat) →
      decode_version_edits bs = .error (.unknownTag tag)) ∧
    (tag % 256 ∈ ([7, 100, 102] : List Nat) →
      decode_version_edits bs = .error (.obsoleteTag tag)) := by
  obtain ⟨b, rest, rfl⟩ : ∃ b r, bs = b :: r := by
    cases bs with
    | nil => simp [read_varint32, read_varint_aux] at h
    | cons b r => exact ⟨b, r, rfl⟩
  constructor
  · intro hmem
    simp only [List.mem_cons, List.not_mem_nil, or_false, not_or] at hmem
    obtain ⟨n1, n2, n3, n4, n5, n6, n7, n9, n10, n100, n102, n103, n200, n201, n202, n203⟩ := hmem
    show decodeEditsAux ((b :: rest).length + 1) (b :: rest) [] = _
    simp only [decodeEditsAux]
    rw [h]
    simp only []
    rw [if_neg n1, if_neg n2, if_neg n3, if_neg n4,
      if_neg (show ¬(tag % 256 = 7 ∨ tag % 256 = 100 ∨ tag % 256 = 102) by simp [n7, n100, n102]),
      if_neg n103, if_neg n200, if_neg n201, if_neg n9, if_neg n203, if_neg n6, if_neg n5,
      if_neg n10, if_neg n202]
  · intro hmem
    have hobs : tag % 256 = 7 ∨ tag % 256 = 100 ∨ tag % 256 = 102 := by
      simpa using hmem
    have hne : ∀ k : Nat, k ≠ 7 → k ≠ 100 → k ≠ 102 → tag % 256 ≠ k := by
      intro k h7 h100 h102 hk
      rcases hobs with h | h | h <;> omega
    show decodeEditsAux ((b :: rest).length + 1) (b :: rest) [] = _
    simp only [decodeEditsAux]
    rw [h]
    simp only []
    rw [if_neg (hne 1 (by omega) (by omega) (by omega)),
      if_neg (hne 2 (by omega) (by omega) (by omega)),
      if_neg (hne 3 (by omega) (by omega) (by omega)),
      if_neg (hne 4 (by omega) (by omega) (by omega)),
      if_pos hobs]

/-- C3 amended, witness: tag 11 (not recognized) gives UnknownTag, via the
amended theorem applied at the one-byte payload [11]. -/
theorem c3_tag_dispatch_after_truncation_witness :
    decode_version_edits [11] = .error (.unknownTag 11) :=
  (c3_tag_dispatch_after_truncation [11] [] 11 (by decide)).1 (by decide)

/-- C4: a logical payload split into one First fragment, any number of
Middle fragments and one Last fragment, laid out consecutively (with the
mandatory block-trailer padding) starting at offset 0, yields exactly the
same decoded result as the whole payload encoded as a single Full fragment,
for arbitrary stored checksums. -/
theorem c4_fragment_split_equals_full (c1 c2 cf : Nat) (p1 pl : List Nat)
    (mids : List (Nat × List Nat))
    (hp1 : p1.length ≤ 65535) (hm : ∀ m ∈ mids, m.2.length ≤ 65535)
    (hpl : pl.length ≤ 65535)
    (hP : (p1 ++ (mids.map Prod.snd).flatten ++ pl).length ≤ 65535) :
    read_record_value
        (layoutFrags 0 (⟨c1, 2, p1⟩ :: (mids.map midFrag ++ [⟨c2, 4, pl⟩]))) 0 =
      read_record_value
        (layoutFrags 0 [⟨cf, 1, p1 ++ (mids.map Prod.snd).flatten ++ pl⟩]) 0 := by
  have hR : readRecordAux
      ((layoutFrags 0 [⟨cf, 1, p1 ++ (mids.map Prod.snd).flatten ++ pl⟩]).length + 1)
      (layoutFrags 0 [⟨cf, 1, p1 ++ (mids.map Prod.snd).flatten ++ pl⟩]) 0 [] =
      .ok (some (p1 ++ (mids.map Prod.snd).flatten ++ pl, [],
        nextPos 0 (p1 ++ (mids.map Prod.snd).flatten ++ pl))) := by
    rw [readRecordAux_layout_cons cf 1 (p1 ++ (mids.map Prod.snd).flatten ++ pl) hP [] _ 0 []]
    norm_num [layoutFrags]
  have hfuel : mids.length <
      (layoutFrags 0 (⟨c1, 2, p1⟩ :: (mids.map midFrag ++ [⟨c2, 4, pl⟩]))).length := by
    have := layoutFrags_length_ge (⟨c1, 2, p1⟩ :: (mids.map midFrag ++ [⟨c2, 4, pl⟩])) 0
    simp only [List.length_cons, List.length_append, List.length_map] at this
    omega
  have hL : readRecordAux
      ((layoutFrags 0 (⟨c1, 2, p1⟩ :: (mids.map midFrag ++ [⟨c2, 4, pl⟩]))).length + 1)
      (layoutFrags 0 (⟨c1, 2, p1⟩ :: (mids.map midFrag ++ [⟨c2, 4, pl⟩]))) 0 [] =
      .ok (some (p1 ++ (mids.map Prod.snd).flatten ++ pl, [],
        endPos (nextPos 0 p1) (mids.map midFrag ++ [⟨c2, 4, pl⟩]))) := by
    rw [readRecordAux_layout_cons c1 2 p1 hp1 _ _ 0 []]
    norm_num
    rw [readRecordAux_middles_last mids c2 pl hm hpl _ (nextPos 0 p1) p1 hfuel]
    simp [List.append_assoc]
  unfold read_record_value read_record
  rw [hL, hR]
  simp only []
  cases hdec : decode_version_edits (p1 ++ (mids.map Prod.snd).flatten ++ pl) <;> simp

/-- C4 witness: payload [2, 5] split as First [2] / Last [5] versus a single
Full fragment, both at offset 0. -/
theorem c4_fragment_split_equals_full_witness :
    read_record_value (layoutFrags 0 [⟨0, 2, [2]⟩, ⟨0, 4, [5]⟩]) 0 =
      read_record_value (layoutFrags 0 [⟨0, 1, [2, 5]⟩]) 0 :=
  c4_fragment_split_equals_full 0 0 0 [2] [5] [] (by decide) (by simp) (by decide) (by decide)

/-- C5: the concrete scenario: one Full record encoding LogNumber(5),
AddFile(level 1, file 7, size 4096, keys 0x01 a / 0x01 z, seqnos 10..20,
NeedsCompaction=true, Terminate) and LastSequence(20) decodes to exactly
those three operations in order, with needs_compaction true and every other
optional attribute at its Default value (user_defined_timestamps_persisted
being true there). -/
theorem c5_concrete_manifest_decodes :
    read_record_value ([0, 0, 0, 0, 21, 0, 1] ++
      [2, 5, 103, 1, 7, 128, 32, 2, 1, 97, 2, 1, 122, 10, 20, 2, 1, 1, 1, 4, 20]) 0 =
      .ok (some [.logNumber 5,
        .newFile4 { FileMetaData.default with
          level := 1
          file_number := 7
          file_size := 4096
          smallest_key := [1, 97]
          largest_key := [1, 122]
          smallest_seqno := 10
          largest_seqno := 20
          needs_compaction := true },
        .lastSequence 20]) := by decide

/-- C6: inside the file-add sub-decoding, an unrecognized sub_tag (one
outside 1..16) with a parseable length-prefixed value fails with
UnsupportedCustomField exactly when bit 0x40 of the sub_tag is set, and is
otherwise skipped: decoding continues behind the value with the
FileMetaData untouched. -/
theorem c6_unrecognized_subtag_bit40 (fuel : Nat) (bs bs1 field_data rest : List Nat)
    (t : Nat) (meta : FileMetaData)
    (hv : read_varint32 bs = some (t, bs1))
    (hun : ¬(1 ≤ t ∧ t ≤ 16))
    (hs : read_length_prefixed_slice bs1 = some (field_data, rest)) :
    readCustomFieldsAux (fuel + 1) bs meta =
      if t &&& 0x40 ≠ 0 then .error (.unsupportedCustomField t)
      else readCustomFieldsAux fuel rest meta := by
  simp only [readCustomFieldsAux]
  rw [hv]
  simp only []
  rw [if_neg (show t ≠ 1 by omega), hs]
  simp only []
  rw [if_neg (show t ≠ 2 by omega), if_neg (show t ≠ 3 by omega),
    if_neg (show t ≠ 4 by omega), if_neg (show t ≠ 5 by omega),
    if_neg (show t ≠ 6 by omega), if_neg (show t ≠ 7 by omega),
    if_neg (show t ≠ 8 by omega), if_neg (show t ≠ 9 by omega),
    if_neg (show t ≠ 10 by omega), if_neg (show t ≠ 11 by omega),
    if_neg (show t ≠ 12 by omega), if_neg (show t ≠ 13 by omega),
    if_neg (show t ≠ 14 by omega), if_neg (show t ≠ 15 by omega),
    if_neg (show t ≠ 16 by omega)]

/-- C6 witness: sub_tag 0x41 (65, bit 0x40 set) rejects, evaluated through
the theorem on the bytes [65, 0] (tag 65, empty value). -/
theorem c6_unrecognized_subtag_bit40_witness :
    readCustomFieldsAux 1 [65, 0] FileMetaData.default =
      .error (.unsupportedCustomField 65) := by
  have h := c6_unrecognized_subtag_bit40 0 [65, 0] [0] [] [] 65 FileMetaData.default
    (by decide) (by omega) (by decide)
  simpa using h

/-- C8: unmask_crc is, bit for bit, the right-rotation by 17 positions of
the 32-bit value (stored - 0xa282ead8 modulo 2^32): bit i of the result
equals bit (i + 17) mod 32 of the subtracted value, for every bit position
i below 32 and every stored u32. -/
theorem c8_unmask_is_rotate_right_17 (c : Nat) (hc : c < 2 ^ 32) (i : Nat) (hi : i < 32) :
    (unmask_crc c).testBit i =
      ((((c : Int) - 0xa282ead8) % 2 ^ 32).toNat).testBit ((i + 17) % 32) := by
  have hd : (((c : Int) - 0xa282ead8) % 2 ^ 32).toNat =
      (c + (4294967296 - 0xa282ead8)) % 4294967296 := by omega
  rw [hd]
  unfold unmask_crc
  simp only []
  set d := (c + (4294967296 - 0xa282ead8)) % 4294967296 with hdd
  have hdlt : d < 2 ^ 32 := by omega
  have h32 : (4294967296 : Nat) = 2 ^ 32 := by norm_num
  rw [h32]
  rw [Nat.testBit_lor, Nat.testBit_shiftRight, Nat.testBit_mod_two_pow, Nat.testBit_shiftLeft]
  rcases Nat.lt_or_ge i 15 with h | h
  · have hmod : (i + 17) % 32 = i + 17 := Nat.mod_eq_of_lt (by omega)
    rw [hmod]
    have h15 : decide (i ≥ 15) = false := by simp; omega
    rw [h15]
    simp [Nat.add_comm 17 i]
  · have hmod : (i + 17) % 32 = i - 15 := by omega
    rw [hmod]
    have hhi : d.testBit (17 + i) = false := by
      apply Nat.testBit_lt_two_pow
      calc d < 2 ^ 32 := hdlt
        _ ≤ 2 ^ (17 + i) := Nat.pow_le_pow_right (by norm_num) (by omega)
    rw [hhi]
    have h15 : decide (i ≥ 15) = true := by simp; omega
    have hlt : decide (i < 32) = true := by simp [hi]
    rw [h15, hlt]
    simp

/-- C8 witness: the rotation equation evaluated at stored value 5, bit 3. -/
theorem c8_unmask_is_rotate_right_17_witness :
    (unmask_crc 5).testBit 3 =
      ((((5 : Nat) : Int) - 0xa282ead8) % 2 ^ 32).toNat.testBit ((3 + 17) % 32) :=
  c8_unmask_is_rotate_right_17 5 (by norm_num) 3 (by norm_num)

/-- C9: whenever the 7-byte header read hits end of file - fewer than
padFor pos + 7 bytes remain, i.e. fewer than 7 bytes follow the trailer
skip, covering partial headers of 1 to 6 bytes - the loop returns Ok none,
for every accumulator (any partially accumulated First/Middle payload is
discarded) and every fuel. -/
theorem c9_partial_header_is_clean_eof (fuel pos : Nat) (bytes acc : List Nat)
    (h : bytes.length < padFor pos + 7) :
    readRecordAux (fuel + 1) bytes pos acc = .ok none :=
  readRecordAux_eof fuel pos bytes acc h

/-- C9 witness: 3 leftover header bytes with an open accumulator [9, 9]. -/
theorem c9_partial_header_is_clean_eof_witness :
    readRecordAux 5 [1, 2, 3] 0 [9, 9] = .ok none :=
  c9_partial_header_is_clean_eof 4 0 [1, 2, 3] [9, 9] (by decide)

/-- C10: a fragment of type First read while an accumulation is already
open silently replaces the accumulator with the new fragment's payload: the
loop continues with accumulator p, the previous accumulator acc being
dropped, and no error is raised. -/
theorem c10_first_replaces_open_accumulator (c : Nat) (p : List Nat)
    (hp : p.length ≤ 65535) (fs : List Frag) (fuel pos : Nat) (acc : List Nat) :
    readRecordAux (fuel + 1) (layoutFrags pos (⟨c, 2, p⟩ :: fs)) pos acc =
      readRecordAux fuel (layoutFrags (nextPos pos p) fs) (nextPos pos p) p := by
  rw [readRecordAux_layout_cons c 2 p hp fs fuel pos acc]
  norm_num

lemma readRecordAux_layout_cons' (f : Frag) (hp : f.payload.length ≤ 65535)
    (fs : List Frag) (fuel pos : Nat) (acc : List Nat) :
    readRecordAux (fuel + 1) (layoutFrags pos (f :: fs)) pos acc =
      if f.ftype = 1 then
        .ok (some (f.payload, layoutFrags (nextPos pos f.payload) fs, nextPos pos f.payload))
      else if f.ftype = 2 then
        readRecordAux fuel (layoutFrags (nextPos pos f.payload) fs)
          (nextPos pos f.payload) f.payload
      else if f.ftype = 3 then
        readRecordAux fuel (layoutFrags (nextPos pos f.payload) fs)
          (nextPos pos f.payload) (acc ++ f.payload)
      else if f.ftype = 4 then
        .ok (some (acc ++ f.payload, layoutFrags (nextPos pos f.payload) fs,
          nextPos pos f.payload))
      else .error (.invalidRecordType f.ftype) := by
  obtain ⟨c, t, p⟩ := f
  exact readRecordAux_layout_cons c t p hp fs fuel pos acc

lemma layoutFrags_length_rel : ∀ fs gs : List Frag, FragRel fs gs →
    ∀ pos, (layoutFrags pos fs).length = (layoutFrags pos gs).length := by
  intro fs
  induction fs with
  | nil =>
    intro gs hrel pos
    have hgs : gs = [] := by
      cases gs with
      | nil => rfl
      | cons g gs' => simp [FragRel] at hrel
    subst hgs
    rfl
  | cons f fs ih =>
    intro gs hrel pos
    cases gs with
    | nil => simp [FragRel] at hrel
    | cons g gs' =>
      simp only [FragRel, List.map_cons, List.cons.injEq, Prod.mk.injEq] at hrel
      obtain ⟨⟨hft, hpl⟩, htl⟩ := hrel
      rw [layoutFrags_cons, layoutFrags_cons]
      have hrec := ih gs' htl (nextPos pos g.payload)
      simp only [List.length_append, List.length_replicate, fragBytes_length, hpl]
      omega

/-- Checksums do not influence the framing loop: on two layouts whose
fragments agree except for the stored checksums, the loop errors
identically, ends identically, or returns the same payload and offset with
the remaining bytes being the layouts of corresponding suffixes. -/
lemma readRecordAux_parallel : ∀ fs gs : List Frag, FragRel fs gs →
    (∀ f ∈ fs, f.payload.length ≤ 65535) → ∀ fuel pos acc,
    (∃ e, readRecordAux fuel (layoutFrags pos fs) pos acc = .error e ∧
          readRecordAux fuel (layoutFrags pos gs) pos acc = .error e) ∨
    (readRecordAux fuel (layoutFrags pos fs) pos acc = .ok none ∧
     readRecordAux fuel (layoutFrags pos gs) pos acc = .ok none) ∨
    (∃ pl pos' n,
      readRecordAux fuel (layoutFrags pos fs) pos acc =
        .ok (some (pl, layoutFrags pos' (fs.drop n), pos')) ∧
      readRecordAux fuel (layoutFrags pos gs) pos acc =
        .ok (some (pl, layoutFrags pos' (gs.drop n), pos'))) := by
  intro fs
  induction fs with
  | nil =>
    intro gs hrel hok fuel pos acc
    have hgs : gs = [] := by
      cases gs with
      | nil => rfl
      | cons g gs' => simp [FragRel] at hrel
    subst hgs
    cases fuel with
    | zero => exact .inl ⟨.fuelExhausted, rfl, rfl⟩
    | succ fuel =>
      refine .inr (.inl ⟨?_, ?_⟩) <;>
        exact readRecordAux_eof fuel pos _ acc
          (by simp only [layoutFrags, List.length_nil]; omega)
  | cons f fs ih =>
    intro gs hrel hok fuel pos acc
    cases gs with
    | nil => simp [FragRel] at hrel
    | cons g gs' =>
      simp only [FragRel, List.map_cons, List.cons.injEq, Prod.mk.injEq] at hrel
      obtain ⟨⟨hft, hpl⟩, htl⟩ := hrel
      have hok' : ∀ x ∈ fs, x.payload.length ≤ 65535 := fun x hx => hok x (by simp [hx])
      have hpf : f.payload.length ≤ 65535 := hok f (by simp)
      cases fuel with
      | zero => exact .inl ⟨.fuelExhausted, rfl, rfl⟩
      | succ fuel =>
        have hstepf := readRecordAux_layout_cons' f hpf fs fuel pos acc
        have hstepg := readRecordAux_layout_cons' g (hpl ▸ hpf) gs' fuel pos acc
        rw [← hft, ← hpl] at hstepg
        rw [hstepf, hstepg]
        by_cases h1 : f.ftype = 1
        · simp only [if_pos h1]
          exact .inr (.inr ⟨f.payload, nextPos pos f.payload, 1, rfl, rfl⟩)
        · simp only [if_neg h1]
          by_cases h2 : f.ftype = 2
          · simp only [if_pos h2]
            rcases ih gs' htl hok' fuel (nextPos pos f.payload) f.payload with
              ⟨e, ha, hb⟩ | ⟨ha, hb⟩ | ⟨pl, pos', n, ha, hb⟩
            · exact .inl ⟨e, ha, hb⟩
            · exact .inr (.inl ⟨ha, hb⟩)
            · exact .inr (.inr ⟨pl, pos', n + 1, ha, hb⟩)
          · simp only [if_neg h2]
            by_cases h3 : f.ftype = 3
            · simp only [if_pos h3]
              rcases ih gs' htl hok' fuel (nextPos pos f.payload) (acc ++ f.payload) with
                ⟨e, ha, hb⟩ | ⟨ha, hb⟩ | ⟨pl, pos', n, ha, hb⟩
              · exact .inl ⟨e, ha, hb⟩
              · exact .inr (.inl ⟨ha, hb⟩)
              · exact .inr (.inr ⟨pl, pos', n + 1, ha, hb⟩)
            · simp only [if_neg h3]
              by_cases h4 : f.ftype = 4
              · simp only [if_pos h4]
                exact .inr (.inr ⟨acc ++ f.payload, nextPos pos f.payload, 1, rfl, rfl⟩)
              · simp only [if_neg h4]
                exact .inl ⟨.invalidRecordType f.ftype, rfl, rfl⟩

/-- Checksums do not influence one full read_record call, up to the
correspondence of the leftover reader state. -/
lemma read_record_parallel (fs gs : List Frag) (hrel : FragRel fs gs)
    (hok : ∀ f ∈ fs, f.payload.length ≤ 65535) (pos : Nat) :
    (∃ e, read_record (layoutFrags pos fs) pos = .error e ∧
          read_record (layoutFrags pos gs) pos = .error e) ∨
    (read_record (layoutFrags pos fs) pos = .ok none ∧
     read_record (layoutFrags pos gs) pos = .ok none) ∨
    (∃ edits pos' n,
      read_record (layoutFrags pos fs) pos =
        .ok (some (edits, layoutFrags pos' (fs.drop n), pos')) ∧
      read_record (layoutFrags pos gs) pos =
        .ok (some (edits, layoutFrags pos' (gs.drop n), pos'))) := by
  have hlen := layoutFrags_length_rel fs gs hrel pos
  rcases readRecordAux_parallel fs gs hrel hok ((layoutFrags pos fs).length + 1) pos [] with
    ⟨e, h1, h2⟩ | ⟨h1, h2⟩ | ⟨pl, pos', n, h1, h2⟩
  · refine .inl ⟨e, ?_, ?_⟩
    · simp only [read_record, h1]
    · simp only [read_record, ← hlen, h2]
  · refine .inr (.inl ⟨?_, ?_⟩)
    · simp only [read_record, h1]
    · simp only [read_record, ← hlen, h2]
  · rcases hdec : decode_version_edits pl with e | edits
    · refine .inl ⟨e, ?_, ?_⟩
      · simp only [read_record, h1, hdec]
      · simp only [read_record, ← hlen, h2, hdec]
    · refine .inr (.inr ⟨edits, pos', n, ?_, ?_⟩)
      · simp only [read_record, h1, hdec]
      · simp only [read_record, ← hlen, h2, hdec]

lemma fragRel_drop (fs gs : List Frag) (h : FragRel fs gs) (n : Nat) :
    FragRel (fs.drop n) (gs.drop n) := by
  show (fs.drop n).map _ = (gs.drop n).map _
  rw [List.map_drop, List.map_drop, h]

lemma readAllAux_parallel : ∀ fuel : Nat, ∀ fs gs : List Frag, FragRel fs gs →
    (∀ f ∈ fs, f.payload.length ≤ 65535) → ∀ pos acc,
    readAllAux fuel (layoutFrags pos fs) pos acc =
      readAllAux fuel (layoutFrags pos gs) pos acc := by
  intro fuel
  induction fuel with
  | zero => intros; rfl
  | succ fuel ih =>
    intro fs gs hrel hok pos acc
    rcases read_record_parallel fs gs hrel hok pos with
      ⟨e, h1, h2⟩ | ⟨h1, h2⟩ | ⟨edits, pos', n, h1, h2⟩
    · simp only [readAllAux, h1, h2]
    · simp only [readAllAux, h1, h2]
    · simp only [readAllAux, h1, h2]
      exact ih (fs.drop n) (gs.drop n) (fragRel_drop fs gs hrel n)
        (fun x hx => hok x (List.drop_subset n fs hx)) pos' (acc ++ [edits])

/-- C7: a checksum mismatch never aborts decoding and never changes the
decoded result: for two files that are layouts of the same record fragments
(same types and payloads, length-valid headers) differing only in the
stored 4-byte checksum words of their record headers, the full sequence of
read_record results - every decoded edit list and the terminating
condition - is identical. -/
theorem c7_checksums_never_change_results (fs gs : List Frag)
    (hrel : FragRel fs gs) (hok : ∀ f ∈ fs, FragOk f) :
    readAll (layoutFrags 0 fs) = readAll (layoutFrags 0 gs) := by
  unfold readAll
  rw [layoutFrags_length_rel fs gs hrel 0]
  exact readAllAux_parallel _ fs gs hrel (fun f hf => (hok f hf).2) 0 []

/-- C7 witness: the same Full record [2, 5] once with stored checksum 1 and
once with stored checksum 99. -/
theorem c7_checksums_never_change_results_witness :
    readAll (layoutFrags 0 [⟨1, 1, [2, 5]⟩]) = readAll (layoutFrags 0 [⟨99, 1, [2, 5]⟩]) :=
  c7_checksums_never_change_results [⟨1, 1, [2, 5]⟩] [⟨99, 1, [2, 5]⟩] rfl
    (by intro f hf; simp at hf; subst hf; exact ⟨by decide, by decide⟩)

/-- C10 witness: a First fragment with payload [7] read with accumulator
[1, 2] already open continues with accumulator [7]. -/
theorem c10_first_replaces_open_accumulator_witness :
    readRecordAux 1 (layoutFrags 0 [⟨0, 2, [7]⟩]) 0 [1, 2] =
      readRecordAux 0 (layoutFrags (nextPos 0 [7]) []) (nextPos 0 [7]) [7] :=
  c10_first_replaces_open_accumulator 0 [7] (by decide) [] 0 0 [1, 2]

end Manifest
